import Mathlib

/-!
Shallow embedding of catalaunch.c (src/python/sb/catalaunch.c), a small
Unix-domain-socket relay client. Bytes are modelled as Char; byte strings
as List Char. The message construction, the receive/relay loop, the
argument gate and the post-connect control flow are translated directly
from the source; the worker-side unescape is modelled from the spec, as
the worker is not part of this repository.
-/

namespace Catalaunch

/-- Buffer-size constant from catalaunch.c: `#define PWD_LEN 1024`. -/
def PWD_LEN : Nat := 1024

/-- Buffer-size constant from catalaunch.c: `#define SEND_LEN 8192`. -/
def SEND_LEN : Nat := 8192

/-- Buffer-size constant from catalaunch.c: `#define RECV_LEN 1024`. -/
def RECV_LEN : Nat := 1024

/-- The NUL byte. -/
def nul : Char := Char.ofNat 0

/-- One step of the escaping loop (catalaunch.c lines 65-69 and 78-81):
if the character is a space or a backslash, a backslash is emitted first,
then the character itself; every other character is emitted unchanged. -/
def escapeChar (c : Char) : List Char :=
  if c = ' ' ∨ c = '\\' then ['\\', c] else [c]

/-- The escaping rule applied to a whole string, character by character. -/
def escape : List Char → List Char
  | [] => []
  | c :: s => escapeChar c ++ escape s

/-- Modelled from the spec: the worker-side inverse unescape, which is not
part of this repository. A backslash removes the escape and passes the
next character through; every other character passes through unchanged. -/
def unescape : List Char → List Char
  | [] => []
  | [c] => if c = '\\' then [] else [c]
  | c :: d :: rest =>
    if c = '\\' then d :: unescape rest
    else c :: unescape (d :: rest)

/-- Bytes contributed to the message by the arguments after the endpoint
path (catalaunch.c lines 74-83, with the cap ignored): for each argument,
one literal separator space followed by the escaped argument. -/
def msgTail : List (List Char) → List Char
  | [] => []
  | a :: rest => ' ' :: escape a ++ msgTail rest

/-- Number of message bytes the argument part would need: one separator
space plus the escaped length, per argument. -/
def argsLen : List (List Char) → Nat
  | [] => 0
  | a :: rest => 1 + (escape a).length + argsLen rest

/-- Total escaped payload size: escaped working directory plus the
argument contributions. -/
def totalLen (pwd : List Char) (args : List (List Char)) : Nat :=
  (escape pwd).length + argsLen args

/-- The argument loop of catalaunch.c lines 74-83: before each argument
the guard `p < SEND_LEN-1` is checked (and only there); if it holds, a
separator space and the whole escaped argument are appended with no
further per-character check. `msg.length` plays the role of `p`. -/
def buildLoop : List (List Char) → List Char → List Char
  | [], msg => msg
  | a :: rest, msg =>
    if msg.length < SEND_LEN - 1 then buildLoop rest (msg ++ ' ' :: escape a)
    else msg

/-- The whole message-construction step of catalaunch.c lines 60-83: the
escaped working directory is emitted first (with no cap check at all),
then the argument loop runs. -/
def buildMsg (pwd : List Char) (args : List (List Char)) : List Char :=
  buildLoop args (escape pwd)

/-- Prepend one character to the first field of a split result. -/
def consHead (c : Char) : List (List Char) → List (List Char)
  | [] => [[c]]
  | f :: fs => (c :: f) :: fs

/-- Prepend a string to the first field of a split result. -/
def consHeadList (xs : List Char) : List (List Char) → List (List Char)
  | [] => [xs]
  | f :: fs => (xs ++ f) :: fs

/-- Split a message on unescaped spaces: an unescaped space separates
fields, while a backslash keeps itself and the following character inside
the current field (so escaped spaces do not separate). -/
def splitUnesc : List Char → List (List Char)
  | [] => [[]]
  | [c] =>
    if c = ' ' then [[], []]
    else [[c]]
  | c :: d :: rest =>
    if c = ' ' then [] :: splitUnesc (d :: rest)
    else if c = '\\' then consHead '\\' (consHead d (splitUnesc rest))
    else consHead c (splitUnesc (d :: rest))

/-- One pass of the relay loop body (catalaunch.c lines 95-96): the chunk
is printed with `printf("%s", str)` after a NUL terminator is stored, so
output stops at the first NUL byte inside the chunk. -/
def printfChunk (chunk : List Char) : List Char :=
  chunk.takeWhile (fun c => c != nul)

/-- Standard-output bytes produced by the whole receive loop for a given
sequence of received chunks. -/
def relayOutput : List (List Char) → List Char
  | [] => []
  | ch :: rest => printfChunk ch ++ relayOutput rest

/-- The store `str[n] = '\0'` of catalaunch.c line 95, made explicit about
bounds: the write lands inside the buffer only when `n` is strictly below
the buffer length, and is out of bounds otherwise. -/
def storeTerminator (buf : List Char) (n : Nat) : Option (List Char) :=
  if n < buf.length then some (buf.set n nul) else none

/-- The receive buffer `char str[RECV_LEN]` of catalaunch.c line 92. -/
def recvBuf : List Char := List.replicate RECV_LEN ' '

/-- The Linux limit on `sun_path` (bytes, terminator included). -/
def UNIX_PATH_MAX : Nat := 108

/-- The address setup of catalaunch.c line 53: `strcpy(remote.sun_path,
argv[1])` copies the path and its NUL terminator with no length check
whatsoever, so the copy always proceeds (`some`) whatever the path
length; there is no error branch. -/
def sunPathWrite (path : List Char) : Option (List Char) :=
  some (path ++ [nul])

/-- How the receive loop ends: a zero-length read (peer closed cleanly)
or a negative return from recv. -/
inductive RecvEnd
  | clean
  | err

/-- Whether the loop ended with a recv error. -/
def RecvEnd.isErr : RecvEnd → Bool
  | .err => true
  | .clean => false

/-- Externally observable behaviour of the peer once the connection is
established: whether the single send succeeds, the chunks recv returns,
and how the stream ends. -/
structure PeerRun where
  sendOk : Bool
  chunks : List (List Char)
  ending : RecvEnd

/-- Observable outcome of the post-connect part of main. -/
structure RunResult where
  out : List Char
  socketClosed : Bool
  exitCode : Int
  recvErrorReported : Bool

/-- Post-connect control flow of main (catalaunch.c lines 86-106): on a
send failure, perror and `return -1` with no close; otherwise the receive
loop runs to its end, a recv error is reported to standard error when the
loop ended with n < 0, `close(s)` is reached, and main returns 0. -/
def runAfterConnect (pr : PeerRun) : RunResult :=
  if pr.sendOk = true then
    { out := relayOutput pr.chunks
      socketClosed := true
      exitCode := 0
      recvErrorReported := pr.ending.isErr }
  else
    { out := []
      socketClosed := false
      exitCode := -1
      recvErrorReported := false }

/-- The usage text printed to standard output by catalaunch.c line 38,
with argv[0] substituted for the %s. -/
def usageText (prog : List Char) : List Char :=
  "Example usage:\n\n\t".toList ++ prog ++ " sockfile -m sb.noop --flags flag\n".toList

/-- First action taken by main: either print the usage text to standard
output and exit with the given code, or go on to create and connect the
socket for the given path, with the given payload arguments. -/
inductive StartStep
  | usageExit : List Char → Int → StartStep
  | openSocket : List Char → List (List Char) → StartStep

/-- Whether the start step proceeds to socket creation. -/
def StartStep.isOpenSocket : StartStep → Bool
  | .openSocket _ _ => true
  | .usageExit _ _ => false

/-- The argument gate of catalaunch.c lines 37-40: argv is the program
name `prog` followed by `rest`; with `argc <= 2` the usage text is
printed and main returns -1, and only otherwise does control reach the
socket calls, with argv[1] as the endpoint path and argv[2..] as the
payload. -/
def mainStart (prog : List Char) (rest : List (List Char)) : StartStep :=
  if 1 + rest.length ≤ 2 then
    .usageExit (usageText prog) (-1)
  else
    match rest with
    | sock :: a :: args => .openSocket sock (a :: args)
    | _ => .usageExit (usageText prog) (-1)

/-- Concrete working directory used by the witnesses. -/
def pwd0 : List Char := "/tmp".toList

/-- Concrete argument list used by the C2 witness. -/
def args0 : List (List Char) := ["a b".toList, "c\\d".toList]

/-- Concrete arguments before the empty argument in the C10 witness. -/
def as0 : List (List Char) := ["x".toList]

/-- Concrete arguments after the empty argument in the C10 witness. -/
def bs0 : List (List Char) := ["y".toList]

/-- A single 9000-character argument, used to drive the message past the
SEND_LEN cap. -/
def bigArg : List Char := List.replicate 9000 'a'

/-- A one-character working directory, as getcwd would minimally give. -/
def rootPwd : List Char := ['/']

/-- A received chunk with an embedded NUL byte. -/
def nulChunk : List Char := ['a', nul, 'b']

/-- A 200-character endpoint path, longer than sun_path can hold. -/
def longPath : List Char := List.replicate 200 'a'

/-- A run whose single send fails. -/
def sendFailRun : PeerRun := { sendOk := false, chunks := [], ending := .clean }

/-- A run whose send succeeds and whose receive loop ends in an error. -/
def recvErrRun : PeerRun := { sendOk := true, chunks := [['x']], ending := .err }

/-- Concrete program name for the C7 witness. -/
def prog0 : List Char := "catalaunch".toList

/-- Concrete argument tail (socket path only) for the C7 witness. -/
def rest0 : List (List Char) := ["catapult.sock".toList]

theorem unescape_bs (d : Char) (rest : List Char) :
    unescape ('\\' :: d :: rest) = d :: unescape rest := by
  simp [unescape]

theorem unescape_cons_ne (c : Char) (rest : List Char) (hc : c ≠ '\\') :
    unescape (c :: rest) = c :: unescape rest := by
  cases rest with
  | nil => simp [unescape, hc]
  | cons d rest2 => simp [unescape, hc]

/-- Claim C1: escaping a string (emit a backslash before each backslash or
space, copy every other character unchanged) and then applying the inverse
unescape reproduces the string exactly. -/
theorem claim_C1_escape_roundtrip (s : List Char) : unescape (escape s) = s := by
  induction s with
  | nil => rfl
  | cons c s ih =>
    show unescape (escapeChar c ++ escape s) = c :: s
    by_cases h : c = ' ' ∨ c = '\\'
    · have he : escapeChar c = ['\\', c] := by
        unfold escapeChar
        rw [if_pos h]
      rw [he]
      simp only [List.cons_append, List.nil_append]
      rw [unescape_bs, ih]
    · push_neg at h
      have he : escapeChar c = [c] := by
        unfold escapeChar
        rw [if_neg (by simp [h.1, h.2])]
      rw [he]
      simp only [List.cons_append, List.nil_append]
      rw [unescape_cons_ne c _ h.2, ih]

theorem consHead_ne_nil (c : Char) (l : List (List Char)) : consHead c l ≠ [] := by
  cases l <;> simp [consHead]

theorem splitUnesc_ne_nil (l : List Char) : splitUnesc l ≠ [] := by
  cases l with
  | nil => simp [splitUnesc]
  | cons c rest =>
    cases rest with
    | nil =>
      simp only [splitUnesc]
      split <;> simp
    | cons d rest2 =>
      simp only [splitUnesc]
      split
      · simp
      · split
        · exact consHead_ne_nil _ _
        · exact consHead_ne_nil _ _

theorem splitUnesc_space (rest : List Char) :
    splitUnesc (' ' :: rest) = [] :: splitUnesc rest := by
  cases rest with
  | nil => simp [splitUnesc]
  | cons d rest2 => simp [splitUnesc]

theorem splitUnesc_bs (d : Char) (rest : List Char) :
    splitUnesc ('\\' :: d :: rest) = consHead '\\' (consHead d (splitUnesc rest)) := by
  have h1 : ('\\' : Char) ≠ ' ' := by decide
  simp [splitUnesc, h1]

theorem splitUnesc_cons_other (c : Char) (rest : List Char)
    (h1 : c ≠ ' ') (h2 : c ≠ '\\') :
    splitUnesc (c :: rest) = consHead c (splitUnesc rest) := by
  cases rest with
  | nil => simp [splitUnesc, h1, consHead]
  | cons d rest2 => simp [splitUnesc, h1, h2]

theorem consHead_consHeadList (c : Char) (xs : List Char) (l : List (List Char)) :
    consHead c (consHeadList xs l) = consHeadList (c :: xs) l := by
  cases l <;> simp [consHead, consHeadList]

theorem consHeadList_nil (l : List (List Char)) (h : l ≠ []) :
    consHeadList [] l = l := by
  cases l with
  | nil => exact absurd rfl h
  | cons f fs => simp [consHeadList]

theorem splitUnesc_escape_append (s rest : List Char) :
    splitUnesc (escape s ++ rest) = consHeadList (escape s) (splitUnesc rest) := by
  induction s with
  | nil =>
    show splitUnesc rest = consHeadList [] (splitUnesc rest)
    rw [consHeadList_nil _ (splitUnesc_ne_nil rest)]
  | cons c s ih =>
    by_cases h : c = ' ' ∨ c = '\\'
    · have he : escape (c :: s) = '\\' :: c :: escape s := by
        show escapeChar c ++ escape s = _
        unfold escapeChar
        rw [if_pos h]
        rfl
      rw [he]
      show splitUnesc ('\\' :: c :: (escape s ++ rest)) = _
      rw [splitUnesc_bs, ih, consHead_consHeadList, consHead_consHeadList]
    · push_neg at h
      have he : escape (c :: s) = c :: escape s := by
        show escapeChar c ++ escape s = _
        unfold escapeChar
        rw [if_neg (by simp [h.1, h.2])]
        rfl
      rw [he]
      show splitUnesc (c :: (escape s ++ rest)) = _
      rw [splitUnesc_cons_other c _ h.1 h.2, ih, consHead_consHeadList]

theorem splitUnesc_msg (pwd : List Char) (args : List (List Char)) :
    splitUnesc (escape pwd ++ msgTail args) = escape pwd :: args.map escape := by
  induction args generalizing pwd with
  | nil =>
    rw [show msgTail [] = [] from rfl, splitUnesc_escape_append]
    simp [splitUnesc, consHeadList]
  | cons a rest ih =>
    show splitUnesc (escape pwd ++ (' ' :: (escape a ++ msgTail rest))) = _
    rw [splitUnesc_escape_append, splitUnesc_space, ih a]
    simp [consHeadList]

theorem buildLoop_all (args : List (List Char)) (msg : List Char)
    (h : msg.length + argsLen args ≤ SEND_LEN - 1) :
    buildLoop args msg = msg ++ msgTail args := by
  induction args generalizing msg with
  | nil => simp [buildLoop, msgTail]
  | cons a rest ih =>
    rw [show argsLen (a :: rest) = 1 + (escape a).length + argsLen rest from rfl] at h
    have hlt : msg.length < SEND_LEN - 1 := by omega
    show buildLoop (a :: rest) msg = msg ++ (' ' :: (escape a ++ msgTail rest))
    simp only [buildLoop]
    rw [if_pos hlt, ih]
    · simp
    · simp only [List.length_append, List.length_cons]
      omega

/-- Claim C2: when the total escaped size fits under the message cap, the
built message is the escaped working directory followed, for each
argument in order, by one literal unescaped space and the escaped
argument; splitting the message on unescaped spaces therefore yields
exactly n+1 fields, the escaped forms of the working directory and of
each argument. -/
theorem claim_C2_message_build (pwd : List Char) (args : List (List Char))
    (h : totalLen pwd args < SEND_LEN) :
    buildMsg pwd args = escape pwd ++ msgTail args
    ∧ splitUnesc (buildMsg pwd args) = escape pwd :: args.map escape
    ∧ (splitUnesc (buildMsg pwd args)).length = args.length + 1 := by
  have h1 : (escape pwd).length + argsLen args ≤ SEND_LEN - 1 := by
    have := h
    unfold totalLen at this
    unfold SEND_LEN at this ⊢
    omega
  have hmsg : buildMsg pwd args = escape pwd ++ msgTail args :=
    buildLoop_all args (escape pwd) h1
  refine ⟨hmsg, ?_, ?_⟩
  · rw [hmsg, splitUnesc_msg]
  · rw [hmsg, splitUnesc_msg]
    simp

/-- Witness for claim C2 at a concrete working directory and argument
list containing spaces and backslashes. -/
theorem claim_C2_witness :
    totalLen pwd0 args0 < SEND_LEN
    ∧ (buildMsg pwd0 args0 = escape pwd0 ++ msgTail args0
       ∧ splitUnesc (buildMsg pwd0 args0) = escape pwd0 :: args0.map escape
       ∧ (splitUnesc (buildMsg pwd0 args0)).length = args0.length + 1) :=
  ⟨by decide, claim_C2_message_build pwd0 args0 (by decide)⟩

theorem escapeChar_a : escapeChar 'a' = ['a'] := by decide

theorem escape_replicate_a (n : Nat) :
    escape (List.replicate n 'a') = List.replicate n 'a' := by
  induction n with
  | zero => rfl
  | succ k ih => simp [List.replicate_succ, escape, escapeChar_a, ih]

/-- Claim C3 evaluation (code bug): the cap guard is checked only between
arguments, never inside the per-character copy loop, so a single long
argument drives the final value of p past SEND_LEN: with a one-character
working directory and one 9000-character argument the emitted message is
9002 bytes long, exceeding the 8192-byte cap instead of being truncated. -/
theorem claim_C3_cap_overflow :
    (buildMsg rootPwd [bigArg]).length = 9002
    ∧ SEND_LEN < (buildMsg rootPwd [bigArg]).length := by
  have hbig : escape bigArg = bigArg := escape_replicate_a 9000
  have hb : buildMsg rootPwd [bigArg] = ['/'] ++ ' ' :: bigArg := by
    have hpwd : escape rootPwd = ['/'] := by decide
    show buildLoop [bigArg] (escape rootPwd) = _
    rw [hpwd]
    simp only [buildLoop]
    rw [if_pos (by decide : (['/'] : List Char).length < SEND_LEN - 1), hbig]
  have hlen : (buildMsg rootPwd [bigArg]).length = 9002 := by
    rw [hb]
    simp only [bigArg, List.length_append, List.length_cons, List.length_nil,
      List.length_replicate]
  exact ⟨hlen, by rw [hlen]; decide⟩

/-- Claim C4 evaluation (code bug): a received chunk with an embedded NUL
byte is not forwarded verbatim: printf stops at the NUL, so the bytes
written to standard output differ from the peer bytes. -/
theorem claim_C4_nul_truncated :
    relayOutput [nulChunk] = ['a'] ∧ relayOutput [nulChunk] ≠ nulChunk := by
  decide

/-- Claim C5 evaluation (code bug): for a 200-character endpoint path the
address setup still performs the unconditional copy, writing 201 bytes
although sun_path holds only UNIX_PATH_MAX; no error is detected or
reported. -/
theorem claim_C5_no_detection :
    sunPathWrite longPath = some (longPath ++ [nul])
    ∧ (longPath ++ [nul]).length = 201
    ∧ UNIX_PATH_MAX < 201 := by
  refine ⟨rfl, ?_, by decide⟩
  simp only [longPath, List.length_append, List.length_replicate, List.length_cons,
    List.length_nil]

/-- Claim C6 counterexample: on the send-failure exit path the socket is
not closed before the process terminates, so the claim that every
post-connect exit path closes the socket fails. -/
theorem claim_C6_counterexample :
    ¬ (runAfterConnect sendFailRun).socketClosed = true := by
  decide

/-- Claim C6 (amended): the socket is closed on exactly the exit paths on
which the send succeeded (successful relay to clean close, and receive
failure); on a send failure main returns without closing the socket. -/
theorem claim_C6_amended_close (pr : PeerRun) :
    (runAfterConnect pr).socketClosed = pr.sendOk := by
  cases hpr : pr.sendOk with
  | true => simp [runAfterConnect, hpr]
  | false => simp [runAfterConnect, hpr]

/-- Claim C7: with fewer than two arguments after the program name, main
prints the usage text to standard output, returns the non-zero status -1,
and never reaches socket creation or connect. -/
theorem claim_C7_usage_gate (prog : List Char) (rest : List (List Char))
    (h : rest.length ≤ 1) :
    mainStart prog rest = .usageExit (usageText prog) (-1)
    ∧ (-1 : Int) ≠ 0
    ∧ (mainStart prog rest).isOpenSocket = false := by
  have hc : 1 + rest.length ≤ 2 := by omega
  have hm : mainStart prog rest = .usageExit (usageText prog) (-1) := by
    unfold mainStart
    rw [if_pos hc]
  refine ⟨hm, by decide, ?_⟩
  rw [hm]
  rfl

/-- Witness for claim C7: invoked with the socket path as the only
argument after the program name. -/
theorem claim_C7_witness :
    rest0.length ≤ 1
    ∧ (mainStart prog0 rest0 = .usageExit (usageText prog0) (-1)
       ∧ (-1 : Int) ≠ 0
       ∧ (mainStart prog0 rest0).isOpenSocket = false) :=
  ⟨by decide, claim_C7_usage_gate prog0 rest0 (by decide)⟩

/-- Claim C8: after a successful send the process exits with status 0
both on a clean zero-length close and on a receive error; in the latter
case the error is reported to standard error but the socket is still
closed and the exit status is the same 0 as on clean-close success. -/
theorem claim_C8_recv_exit (pr : PeerRun) (h : pr.sendOk = true) :
    (runAfterConnect pr).exitCode = 0
    ∧ (runAfterConnect pr).socketClosed = true
    ∧ (runAfterConnect pr).recvErrorReported = pr.ending.isErr := by
  simp [runAfterConnect, h]

/-- Witness for claim C8: a successful send followed by a receive error
still exits with status 0, with the error reported and the socket
closed. -/
theorem claim_C8_witness :
    recvErrRun.sendOk = true
    ∧ ((runAfterConnect recvErrRun).exitCode = 0
       ∧ (runAfterConnect recvErrRun).socketClosed = true
       ∧ (runAfterConnect recvErrRun).recvErrorReported = recvErrRun.ending.isErr) :=
  ⟨rfl, claim_C8_recv_exit recvErrRun rfl⟩

/-- Claim C9: storing the NUL terminator at index n of the RECV_LEN-byte
receive buffer is in bounds exactly when n is strictly below RECV_LEN;
when recv returns exactly RECV_LEN bytes the store is one element past
the end of the buffer. -/
theorem claim_C9_terminator_bounds (n : Nat) (h : n ≤ RECV_LEN) :
    ((storeTerminator recvBuf n).isSome ↔ n < RECV_LEN)
    ∧ storeTerminator recvBuf RECV_LEN = none := by
  have hlen : recvBuf.length = RECV_LEN := by simp [recvBuf]
  constructor
  · unfold storeTerminator
    rw [hlen]
    by_cases hn : n < RECV_LEN
    · simp [hn]
    · simp [hn]
  · unfold storeTerminator
    rw [hlen]
    simp

/-- Witness for claim C9 at a full-size chunk of exactly RECV_LEN
bytes. -/
theorem claim_C9_witness :
    1024 ≤ RECV_LEN
    ∧ (((storeTerminator recvBuf 1024).isSome ↔ 1024 < RECV_LEN)
       ∧ storeTerminator recvBuf RECV_LEN = none) :=
  ⟨by decide, claim_C9_terminator_bounds 1024 (by decide)⟩

/-- Claim C10: each argument after the endpoint path contributes exactly
one unescaped separator space even when it is the empty string, so under
the size cap an empty argument is preserved as a distinct empty field,
neither dropped nor merged with its neighbours. -/
theorem claim_C10_empty_arg_field (pwd : List Char) (xs ys : List (List Char))
    (h : totalLen pwd (xs ++ [] :: ys) < SEND_LEN) :
    splitUnesc (buildMsg pwd (xs ++ [] :: ys))
      = escape pwd :: (xs.map escape ++ [] :: ys.map escape) := by
  have h1 : (escape pwd).length + argsLen (xs ++ [] :: ys) ≤ SEND_LEN - 1 := by
    have hx := h
    unfold totalLen at hx
    unfold SEND_LEN at hx ⊢
    omega
  rw [show buildMsg pwd (xs ++ [] :: ys) = buildLoop (xs ++ [] :: ys) (escape pwd)
      from rfl,
    buildLoop_all _ _ h1, splitUnesc_msg]
  simp [escape]

/-- Witness for claim C10: an empty argument between two non-empty ones
is kept as its own empty field. -/
theorem claim_C10_witness :
    totalLen pwd0 (as0 ++ [] :: bs0) < SEND_LEN
    ∧ splitUnesc (buildMsg pwd0 (as0 ++ [] :: bs0))
        = escape pwd0 :: (as0.map escape ++ [] :: bs0.map escape) :=
  ⟨by decide, claim_C10_empty_arg_field pwd0 as0 bs0 (by decide)⟩

end Catalaunch
